import Mathlib

/-!
Verification of the MedCare risk-scoring core (src/predictor.py).

The development shallowly embeds the scoring pipeline of `predictor.py`:
Python dicts become association lists with first-match lookup, Python
numbers become exact rationals, and the fallible steps (operations that can
raise a `TypeError` at runtime) return `Option`.  Each definition carries a
comment pointing at the lines of `src/predictor.py` it translates.
-/

attribute [local semireducible] Rat.add Rat.mul Rat.sub Rat.inv Rat.ofScientific

/-- Scalar values carried by patient records, mirroring the Python values
that appear in `predictor.py`: ints, floats (modelled exactly as rationals),
strings, and `None`. -/
inductive PyVal where
  | pint (n : ℤ)
  | pfloat (q : ℚ)
  | pstr (s : String)
  | pnone
deriving DecidableEq, Repr

/-- A Python dict keyed by strings, as an association list; lookup takes the
first matching key. -/
abbrev PyRecord := List (String × PyVal)

/-- Lookup in an association list (Python `d.get(k)`), first match wins. -/
def getV {β : Type} : List (String × β) → String → Option β
  | [], _ => none
  | kv :: rest, k => if kv.1 = k then some kv.2 else getV rest k

/-- Update the first binding of `k`, or append a fresh binding at the end:
the semantics of Python `d[k] = v` on an (insertion-ordered) dict. -/
def setV {β : Type} : List (String × β) → String → β → List (String × β)
  | [], k, v => [(k, v)]
  | kv :: rest, k, v => if kv.1 = k then (k, v) :: rest else kv :: setV rest k v

/-- Build a dict from a key-value sequence, later entries overwriting
earlier ones (Python dict construction / comprehension semantics). -/
def buildDict {β : Type} (l : List (String × β)) : List (String × β) :=
  l.foldl (fun d kv => setV d kv.1 kv.2) []

/-- ASCII model of Python `str.lower()` on one character. -/
def lowerChar (c : Char) : Char :=
  if 65 ≤ c.toNat ∧ c.toNat ≤ 90 then Char.ofNat (c.toNat + 32) else c

/-- ASCII model of Python `str.upper()` on one character. -/
def upperChar (c : Char) : Char :=
  if 97 ≤ c.toNat ∧ c.toNat ≤ 122 then Char.ofNat (c.toNat - 32) else c

/-- ASCII model of Python `str.lower()`. -/
def lowerStr (s : String) : String := ⟨s.data.map lowerChar⟩

/-- ASCII model of Python `str.upper()`. -/
def upperStr (s : String) : String := ⟨s.data.map upperChar⟩

/-- Models `key.upper().startswith('SP_')` from predictor.py line 155. -/
def startsWithSP (k : String) : Bool :=
  "SP_".data.isPrefixOf (upperStr k).data

/-- Numeric value of a decimal digit list (most significant first). -/
def natOfDigits (ds : List Char) : ℕ :=
  ds.foldl (fun n c => 10 * n + (c.toNat - 48)) 0

/-- Models Python `str.isdigit()` (ASCII): nonempty and all digits. -/
def isDigits (s : String) : Bool :=
  !s.data.isEmpty && s.data.all Char.isDigit

/-- Fractional value of the digits after a decimal point. -/
def fracOfDigits (ds : List Char) : ℚ :=
  ds.foldr (fun c acc => (((c.toNat - 48 : ℕ) : ℚ) + acc) / 10) 0

/-- Parse an unsigned decimal literal (digits, optional point, digits). -/
def parseUnsigned (cs : List Char) : Option ℚ :=
  let intDigits := cs.takeWhile Char.isDigit
  let rest := cs.dropWhile Char.isDigit
  match rest with
  | [] => if intDigits.isEmpty then none else some ((natOfDigits intDigits : ℚ))
  | c :: frac =>
    if c = '.' ∧ frac.all Char.isDigit ∧ (!intDigits.isEmpty || !frac.isEmpty) then
      some ((natOfDigits intDigits : ℚ) + fracOfDigits frac)
    else none

/-- Model of Python `float(s)` on a string: sign plus decimal literal.
Exponent notation and the special words (inf, nan) are not modelled; the
claims under verification do not depend on them. -/
def pyParseFloat (s : String) : Option ℚ :=
  match s.data with
  | '-' :: rest => (parseUnsigned rest).map (fun q => -q)
  | '+' :: rest => parseUnsigned rest
  | cs => parseUnsigned cs

/-- Value coercion applied to each passed-through form value
(predictor.py lines 156-159): digit-only strings become ints, other values
are passed to `float(...)`, and values for which `float` raises are kept
unchanged. -/
def coerceValue : PyVal → PyVal
  | .pstr s =>
    if isDigits s then .pint ((natOfDigits s.data : ℤ))
    else
      match pyParseFloat s with
      | some q => .pfloat q
      | none => .pstr s
  | .pint n => .pfloat (n : ℚ)
  | .pfloat q => .pfloat q
  | .pnone => .pnone

/-- Numeric view of a value: Python comparisons such as `65 <= age` succeed
exactly on ints and floats and raise `TypeError` otherwise. -/
def pyNumQ : PyVal → Option ℚ
  | .pint n => some (n : ℚ)
  | .pfloat q => some q
  | _ => none

/-- Python `+` on record values as used by `sum(...)`: defined on numbers,
raises (`none`) when a non-number is involved. -/
def pyAdd : PyVal → PyVal → Option PyVal
  | .pint a, .pint b => some (.pint (a + b))
  | .pint a, .pfloat b => some (.pfloat ((a : ℚ) + b))
  | .pfloat a, .pint b => some (.pfloat (a + (b : ℚ)))
  | .pfloat a, .pfloat b => some (.pfloat (a + b))
  | _, _ => none

/-- Models Python `patient_data.get(cond) == 1` (predictor.py line 66):
true for the int 1 and for numerically equal floats, false for strings,
`None`, and a missing key. -/
def pyEqOne : Option PyVal → Bool
  | some (.pint n) => n == 1
  | some (.pfloat q) => q == 1
  | _ => false

/-- Round half to even to an integer, the rounding used by Python `round`. -/
def roundHalfEven (q : ℚ) : ℤ :=
  if q - q.floor < 1 / 2 then q.floor
  else if 1 / 2 < q - q.floor then q.floor + 1
  else if q.floor % 2 = 0 then q.floor else q.floor + 1

/-- Model of Python `round(x, 2)` on exact rationals. -/
def pyRound2 (q : ℚ) : ℚ := ((roundHalfEven (q * 100) : ℤ) : ℚ) / 100

/-- The eleven condition codes, lowercase (predictor.py lines 61-63). -/
def condition_fields : List String :=
  ["sp_chf", "sp_diabetes", "sp_chrnkidn", "sp_cncr", "sp_copd",
   "sp_depressn", "sp_ischmcht", "sp_strketia", "sp_alzhdmta",
   "sp_osteoprs", "sp_ra_oa"]

/-- The display-name translation table (predictor.py lines 74-86). -/
def condition_name_map : List (String × String) :=
  [("sp_chf", "Heart Failure"), ("sp_diabetes", "Diabetes"),
   ("sp_chrnkidn", "Kidney Disease"), ("sp_cncr", "Cancer"),
   ("sp_copd", "COPD"), ("sp_depressn", "Depression"),
   ("sp_ischmcht", "Ischemic Heart"), ("sp_strketia", "Stroke/TIA"),
   ("sp_alzhdmta", "Dementia"), ("sp_osteoprs", "Osteoporosis"),
   ("sp_ra_oa", "Arthritis")]

/-- Models `condition_name_map.get(condition, condition)`
(predictor.py lines 119 and 127). -/
def displayName (c : String) : String := (getV condition_name_map c).getD c

/-- The conditions the patient actually has (predictor.py line 66). -/
def patientConditions (r : PyRecord) : List String :=
  condition_fields.filter (fun c => pyEqOne (getV r c))

/-- A fitted classifier as seen by the attribute probing of
predictor.py lines 97-106: it may expose a per-feature importance vector
(`feature_importances_`), a linear coefficient row (`coef_[0]`), and a
wrapped base estimator (`base_estimator`). -/
inductive MLModel where
  | mk (featureImportances : Option (List ℚ)) (coefRow : Option (List ℚ))
       (baseEstimator : Option MLModel)

/-- Importance resolution (predictor.py lines 94-106): a direct importance
vector wins, else the absolute values of the coefficient row, else the same
two checks on the wrapped base estimator, else unresolved. -/
def resolveImportances : MLModel → Option (List ℚ)
  | .mk (some fi) _ _ => some fi
  | .mk none (some c) _ => some (c.map (fun x => |x|))
  | .mk none none (some (.mk (some fi) _ _)) => some fi
  | .mk none none (some (.mk none (some c) _)) => some (c.map (fun x => |x|))
  | .mk none none (some (.mk none none _)) => none
  | .mk none none none => none

/-- Models `dict(zip(self.feature_columns, importances))`
(predictor.py line 109). -/
def importanceDict (cols : List String) (imps : List ℚ) : List (String × ℚ) :=
  buildDict (List.zip cols imps)

/-- Models `importance_dict.get(cond, 0)` (predictor.py lines 111 and 115). -/
def dictGetD (d : List (String × ℚ)) (k : String) (v : ℚ) : ℚ :=
  (getV d k).getD v

/-- Models `sum(importance_dict.get(cond, 0) for cond in patient_conditions)`
(predictor.py line 111). -/
def totalCondImportance (d : List (String × ℚ)) (pc : List String) : ℚ :=
  pc.foldl (fun acc c => acc + dictGetD d c 0) 0

/-- The weighted-attribution loop of predictor.py lines 108-120: requires
resolved importances and a truthy (nonempty) `feature_columns`, then, when
the total importance of the present conditions is positive, assigns each
present condition with positive relative impact its rounded percentage. -/
def weightedImpacts (m : MLModel) (cols : List String) (pc : List String) :
    List (String × ℚ) :=
  match resolveImportances m with
  | none => []
  | some imps =>
    if cols = [] then []
    else
      let d := importanceDict cols imps
      let total := totalCondImportance d pc
      if 0 < total then
        pc.foldl (fun acc c =>
          if 0 < dictGetD d c 0 / total * 100 then
            setV acc (displayName c) (pyRound2 (dictGetD d c 0 / total * 100))
          else acc) []
      else []

/-- The uniform fallback of predictor.py lines 123-128: each present
condition gets `round(100 / num_conditions, 2)`. -/
def fallbackImpacts (pc : List String) : List (String × ℚ) :=
  pc.foldl (fun acc c =>
    setV acc (displayName c) (pyRound2 (100 / (pc.length : ℚ)))) []

/-- `get_condition_impact` (predictor.py lines 49-131) for a loaded
predictor, taking the entry `self.models.get('mortality')` and
`self.feature_columns` as parameters.  The base prediction computed at
line 55 feeds only a log line and does not affect the result; print
statements are I/O free of the returned value and are not modelled. -/
def getConditionImpact (mortality : Option MLModel) (cols : List String)
    (r : PyRecord) : List (String × ℚ) :=
  let pc := patientConditions r
  if pc = [] then []
  else
    match mortality with
    | none => []
    | some m =>
      let impacts := weightedImpacts m cols pc
      if impacts = [] ∧ pc ≠ [] then fallbackImpacts pc else impacts

/-- Sum of the values of an impact map. -/
def listSumVals (l : List (String × ℚ)) : ℚ := (l.map Prod.snd).sum

/-- The eleven uppercase condition fields (predictor.py line 161). -/
def condition_fields_upper : List String :=
  ["SP_CHF", "SP_DIABETES", "SP_CHRNKIDN", "SP_CNCR", "SP_COPD",
   "SP_DEPRESSN", "SP_ISCHMCHT", "SP_STRKETIA", "SP_ALZHDMTA",
   "SP_OSTEOPRS", "SP_RA_OA"]

/-- The high-impact subset (predictor.py line 170). -/
def high_impact_list : List String :=
  ["SP_CHF", "SP_CHRNKIDN", "SP_CNCR", "SP_COPD"]

/-- Models `1 if 65 <= age < 75 else 0` (predictor.py line 166). -/
def ageBand6574 (a : ℚ) : ℤ := if 65 ≤ a ∧ a < 75 then 1 else 0

/-- Models `1 if 75 <= age < 85 else 0` (predictor.py line 167). -/
def ageBand7584 (a : ℚ) : ℤ := if 75 ≤ a ∧ a < 85 then 1 else 0

/-- Models `1 if age >= 85 else 0` (predictor.py line 168). -/
def ageBand85 (a : ℚ) : ℤ := if 85 ≤ a then 1 else 0

/-- One row of the fixed tier policy table. -/
structure TierRow where
  label : String
  intervention : String
  cost : ℚ
  rate : ℚ
deriving DecidableEq, Repr

/-- The fixed five-row tier policy table (predictor.py lines 193-199). -/
def tier_info : List (ℕ × TierRow) :=
  [(1, ⟨"Low Risk", "Preventive Care", 200, 2 / 100⟩),
   (2, ⟨"Low-Moderate Risk", "Enhanced Wellness", 300, 5 / 100⟩),
   (3, ⟨"Moderate Risk", "Care Coordination", 600, 15 / 100⟩),
   (4, ⟨"High Risk", "Case Management", 800, 25 / 100⟩),
   (5, ⟨"Critical Risk", "Intensive Management", 1000, 35 / 100⟩)]

/-- Lookup `tier_info[risk_tier]`; the pipeline only ever queries keys 1-5,
so the default row is never produced by a pipeline run. -/
def tierInfoAt (t : ℕ) : TierRow :=
  (((tier_info.find? (fun kv => kv.1 = t)).map Prod.snd)).getD ⟨"", "", 0, 0⟩

/-- The threshold cascade of predictor.py lines 187-191. -/
def riskTierOf (p : ℚ) : ℕ :=
  if 85 / 100 ≤ p then 5
  else if 65 / 100 ≤ p then 4
  else if 40 / 100 ≤ p then 3
  else if 15 / 100 ≤ p then 2
  else 1

/-- Models `db_predictions.get('hospitalization_30d_score') or 0`
(predictor.py line 186): a missing score and the falsy score 0.0 both give
the int 0. -/
def primaryScoreOf : Option ℚ → ℚ
  | none => 0
  | some q => if q = 0 then 0 else q

/-- Externally visible I/O performed by the pipeline.  `persistResults`
models the call to `store_prediction_results` (predictor.py line 221),
which opens a database connection and writes the result record. -/
inductive DBEvent where
  | persistResults
deriving DecidableEq, Repr

/-- The result record assembled at predictor.py lines 206-219, plus the
trace of I/O events the call performs before returning.  The dict keys
`risk_30d_hospitalization`, `risk_60d_hospitalization`,
`risk_90d_hospitalization` and `mortality_risk` duplicate
`primaryRiskScore` and the 60d/90d/mortality scores and are represented by
those fields. -/
structure PipelineOutput where
  processed : PyRecord
  predictions : List (String × ℚ)
  hospitalization30d : Option ℚ
  hospitalization60d : Option ℚ
  hospitalization90d : Option ℚ
  mortalityScore : Option ℚ
  primaryRiskScore : ℚ
  riskTier : ℕ
  riskTierLabel : String
  careIntervention : String
  annualInterventionCost : ℚ
  preventionRate : ℚ
  preventedHospitalizations : ℚ
  costSavings : ℚ
  trace : List DBEvent
deriving Inhabited, DecidableEq

/-- The passthrough-and-coerce loop (predictor.py lines 153-159): keys whose
uppercase form begins with `SP_` are skipped, all other values are coerced. -/
def passthroughCoerce (form : PyRecord) : PyRecord :=
  (form.filter (fun kv => !startsWithSP kv.1)).map
    (fun kv => (kv.1, coerceValue kv.2))

/-- The condition-flag re-derivation loop (predictor.py lines 161-163):
each uppercase condition field is set to 1 exactly when that field occurs,
verbatim, as a key of the original `form_data`. -/
def conditionFlagsSet (form : PyRecord) (p : PyRecord) : PyRecord :=
  condition_fields_upper.foldl
    (fun acc f => setV acc f (.pint (if (getV form f).isSome then 1 else 0))) p

/-- `processed_data` as of predictor.py line 163. -/
def stageP2 (form : PyRecord) : PyRecord :=
  conditionFlagsSet form (passthroughCoerce form)

/-- `processed_data` as of predictor.py line 168 (age bands added). -/
def stageP5 (form : PyRecord) (age : ℚ) : PyRecord :=
  setV (setV (setV (stageP2 form)
    "age_65_74" (.pint (ageBand6574 age)))
    "age_75_84" (.pint (ageBand7584 age)))
    "age_85_plus" (.pint (ageBand85 age))

/-- Models `sum(processed_data.get(cond, 0) for cond in high_impact_list)`
(predictor.py line 171); `none` models a `TypeError` from summing a
non-numeric value. -/
def highImpactSum (r : PyRecord) : Option PyVal :=
  high_impact_list.foldlM
    (fun acc c => pyAdd acc ((getV r c).getD (.pint 0))) (PyVal.pint 0)

/-- `processed_data` as of predictor.py line 171. -/
def stageP6 (form : PyRecord) (age : ℚ) (hi : PyVal) : PyRecord :=
  setV (stageP5 form age) "high_impact_conditions" hi

/-- `processed_data` as of predictor.py line 174 (utilization flags added);
`ia`, `ov` and `tc` are the numeric values of `inpatient_admissions`,
`outpatient_visits` and `total_medicare_costs`. -/
def stageP9 (form : PyRecord) (age : ℚ) (hi : PyVal) (ia ov tc : ℚ) :
    PyRecord :=
  setV (setV (setV (stageP6 form age hi)
    "prior_hospitalization" (.pint (if 0 < ia then 1 else 0)))
    "frequent_ed_user" (.pint (if 10 < ov then 1 else 0)))
    "high_cost_patient" (.pint (if 20000 < tc then 1 else 0))

/-- The derived-feature construction of predictor.py lines 152-174, from
the raw form record to the fully enriched `processed_data`; `none` models a
run that raises `TypeError` (a non-numeric value reaching a numeric
comparison or sum). -/
def derivedRecord (form : PyRecord) : Option PyRecord :=
  match pyNumQ ((getV (stageP2 form) "age").getD (.pint 0)) with
  | none => none
  | some age =>
    match highImpactSum (stageP5 form age) with
    | none => none
    | some hi =>
      match pyNumQ ((getV (stageP6 form age hi) "inpatient_admissions").getD (.pint 0)),
            pyNumQ ((getV (stageP6 form age hi) "outpatient_visits").getD (.pint 0)),
            pyNumQ ((getV (stageP6 form age hi) "total_medicare_costs").getD (.pint 0)) with
      | some ia, some ov, some tc => some (stageP9 form age hi ia ov tc)
      | _, _, _ => none

/-- Models `{k.lower(): v for k, v in processed_data.items()}`
(predictor.py line 176). -/
def loweredDict (p : PyRecord) : PyRecord :=
  buildDict (p.map (fun kv => (lowerStr kv.1, kv.2)))

/-- Lines 179-221 of predictor.py: score lookup, the `or 0` defaulting, the
tier cascade, the policy-table row, the ROI derivation, the final merged
record, and the persistence call made just before returning. -/
def buildOutput (p : PyRecord) (predictions : List (String × ℚ)) :
    PipelineOutput :=
  let h30 := getV predictions "30d_hospitalization_score"
  let primary := primaryScoreOf h30
  let row := tierInfoAt (riskTierOf primary)
  { processed := p
    predictions := predictions
    hospitalization30d := h30
    hospitalization60d := getV predictions "60d_hospitalization_score"
    hospitalization90d := getV predictions "90d_hospitalization_score"
    mortalityScore := getV predictions "mortality_score"
    primaryRiskScore := primary
    riskTier := riskTierOf primary
    riskTierLabel := row.label
    careIntervention := row.intervention
    annualInterventionCost := row.cost
    preventionRate := row.rate
    preventedHospitalizations := primary * row.rate
    costSavings := primary * row.rate * 10000
    trace := [DBEvent.persistResults] }

/-- `process_uploaded_data` (predictor.py lines 152-222).  The model
inference `predictor.predict(processed_data_lower)` is abstracted as the
parameter `scoreFn`, mapping the lowercased record to the predictions
dict. -/
def processUploadedData (scoreFn : PyRecord → List (String × ℚ))
    (form : PyRecord) : Option PipelineOutput :=
  (derivedRecord form).map (fun p => buildOutput p (scoreFn (loweredDict p)))

/-- The defaulting loop of `Predictor.predict` (predictor.py lines 33-36):
every feature column absent from the lowercased input is set to 0. -/
def ensureFeatures (cols : List String) (temp : PyRecord) : PyRecord :=
  cols.foldl (fun a f => if (getV a f).isSome then a else setV a f (.pint 0)) temp

/-- Input normalization of `Predictor.predict` (predictor.py lines 30-39):
keys are lowercased, missing feature columns default to 0, and the final
vector `input_df[self.feature_columns]` holds exactly the feature columns
in order. -/
def normalizePredictInput (cols : List String) (input : PyRecord) : PyRecord :=
  cols.map (fun f =>
    (f, (getV (ensureFeatures cols
          (buildDict (input.map (fun kv => (lowerStr kv.1, kv.2))))) f).getD
        (.pint 0)))

theorem getV_setV_self {β : Type} (r : List (String × β)) (k : String) (v : β) :
    getV (setV r k v) k = some v := by
  induction r with
  | nil => simp [setV, getV]
  | cons kv rest ih =>
    by_cases h : kv.1 = k
    · simp [setV, h, getV]
    · simp [setV, h, getV, ih]

theorem getV_setV_of_ne {β : Type} (r : List (String × β)) (k k₂ : String)
    (v : β) (h : k₂ ≠ k) : getV (setV r k v) k₂ = getV r k₂ := by
  induction r with
  | nil => simp [setV, getV, Ne.symm h]
  | cons kv rest ih =>
    by_cases hk : kv.1 = k
    · subst hk
      simp [setV, getV, Ne.symm h]
    · simp [setV, hk, getV, ih]

theorem setV_eq_append_of_not_mem {β : Type} (r : List (String × β))
    (k : String) (v : β) (h : k ∉ r.map Prod.fst) :
    setV r k v = r ++ [(k, v)] := by
  induction r with
  | nil => simp [setV]
  | cons kv rest ih =>
    simp only [List.map_cons, List.mem_cons, not_or] at h
    simp [setV, Ne.symm h.1, ih h.2]

theorem getV_foldl_setV_not_mem {β : Type} (g : String → β) :
    ∀ (ks : List String) (acc : List (String × β)) (f : String),
      f ∉ ks →
      getV (ks.foldl (fun a k => setV a k (g k)) acc) f = getV acc f := by
  intro ks
  induction ks with
  | nil => intro acc f _; rfl
  | cons k rest ih =>
    intro acc f hf
    simp only [List.mem_cons, not_or] at hf
    simp only [List.foldl_cons]
    rw [ih _ _ hf.2, getV_setV_of_ne _ _ _ _ hf.1]

theorem getV_foldl_setV_mem {β : Type} (g : String → β) :
    ∀ (ks : List String) (acc : List (String × β)) (f : String),
      f ∈ ks →
      getV (ks.foldl (fun a k => setV a k (g k)) acc) f = some (g f) := by
  intro ks
  induction ks with
  | nil => intro acc f hf; cases hf
  | cons k rest ih =>
    intro acc f hf
    simp only [List.foldl_cons]
    by_cases hr : f ∈ rest
    · exact ih _ _ hr
    · have hk : f = k := by
        rcases List.mem_cons.mp hf with h | h
        · exact h
        · exact absurd h hr
      subst hk
      rw [getV_foldl_setV_not_mem _ _ _ _ hr, getV_setV_self]

theorem getV_buildDictAux_not_mem {β : Type} :
    ∀ (l : List (String × β)) (acc : List (String × β)) (k : String),
      k ∉ l.map Prod.fst →
      getV (l.foldl (fun d kv => setV d kv.1 kv.2) acc) k = getV acc k := by
  intro l
  induction l with
  | nil => intro acc k _; rfl
  | cons kv rest ih =>
    intro acc k hk
    simp only [List.map_cons, List.mem_cons, not_or] at hk
    simp only [List.foldl_cons]
    rw [ih _ _ hk.2, getV_setV_of_ne _ _ _ _ hk.1]

theorem getV_buildDict_not_mem {β : Type} (l : List (String × β)) (k : String)
    (hk : k ∉ l.map Prod.fst) : getV (buildDict l) k = none :=
  getV_buildDictAux_not_mem l [] k hk

theorem getV_ensureFeatures (cols : List String) (temp : PyRecord)
    (f : String) :
    getV (ensureFeatures cols temp) f =
      if f ∈ cols then some ((getV temp f).getD (.pint 0)) else getV temp f := by
  induction cols generalizing temp with
  | nil => simp [ensureFeatures]
  | cons c rest ih =>
    simp only [ensureFeatures, List.foldl_cons] at *
    by_cases hc : (getV temp c).isSome
    · rw [if_pos hc]
      rw [ih temp]
      by_cases hf : f ∈ rest
      · simp [hf, List.mem_cons, hf, or_true]
      · by_cases hfc : f = c
        · subst hfc
          rcases Option.isSome_iff_exists.mp hc with ⟨v, hv⟩
          simp [hf, hv, List.mem_cons]
        · simp [hf, hfc, List.mem_cons]
    · rw [if_neg hc]
      rw [ih (setV temp c (.pint 0))]
      by_cases hf : f ∈ rest
      · rw [if_pos hf, if_pos (List.mem_cons.mpr (Or.inr hf))]
        by_cases hfc : f = c
        · subst hfc
          rw [getV_setV_self]
          have : getV temp f = none := Option.not_isSome_iff_eq_none.mp hc
          simp [this]
        · rw [getV_setV_of_ne _ _ _ _ hfc]
      · rw [if_neg hf]
        by_cases hfc : f = c
        · subst hfc
          rw [getV_setV_self]
          have : getV temp f = none := Option.not_isSome_iff_eq_none.mp hc
          simp [this, List.mem_cons]
        · rw [getV_setV_of_ne _ _ _ _ hfc]
          simp [List.mem_cons, hfc, hf]

theorem getV_map_pair {β : Type} (hfun : String → β) :
    ∀ (cols : List String) (f : String),
      getV (cols.map (fun c => (c, hfun c))) f =
        if f ∈ cols then some (hfun f) else none := by
  intro cols
  induction cols with
  | nil => intro f; simp [getV]
  | cons c rest ih =>
    intro f
    by_cases hfc : c = f
    · subst hfc
      simp [getV, List.mem_cons]
    · simp only [List.map_cons, getV, hfc, if_false, ih]
      simp [List.mem_cons, Ne.symm hfc]

theorem foldl_setV_map (g : String → String) (vq : String → ℚ) :
    ∀ (pc : List String) (acc : List (String × ℚ)),
      (pc.map g).Nodup → (∀ c ∈ pc, g c ∉ acc.map Prod.fst) →
      pc.foldl (fun a c => setV a (g c) (vq c)) acc
        = acc ++ pc.map (fun c => (g c, vq c)) := by
  intro pc
  induction pc with
  | nil => intro acc _ _; simp
  | cons c rest ih =>
    intro acc hnd hfresh
    simp only [List.map_cons, List.nodup_cons] at hnd
    simp only [List.foldl_cons]
    rw [setV_eq_append_of_not_mem _ _ _ (hfresh c (List.mem_cons_self c rest))]
    rw [ih (acc ++ [(g c, vq c)]) hnd.2]
    · simp
    · intro c₂ hc₂
      simp only [List.map_append, List.mem_append, List.map_cons, not_or]
      refine ⟨hfresh c₂ (List.mem_cons_of_mem _ hc₂), ?_⟩
      simp only [List.map_nil, List.mem_singleton]
      intro hgc
      exact hnd.1 (hgc ▸ List.mem_map_of_mem g hc₂)

theorem foldl_setV_filterMap (g : String → String) (p : String → Prop)
    [DecidablePred p] (vq : String → ℚ) :
    ∀ (pc : List String) (acc : List (String × ℚ)),
      (pc.map g).Nodup → (∀ c ∈ pc, g c ∉ acc.map Prod.fst) →
      pc.foldl (fun a c => if p c then setV a (g c) (vq c) else a) acc
        = acc ++ pc.filterMap
            (fun c => if p c then some (g c, vq c) else none) := by
  intro pc
  induction pc with
  | nil => intro acc _ _; simp
  | cons c rest ih =>
    intro acc hnd hfresh
    simp only [List.map_cons, List.nodup_cons] at hnd
    simp only [List.foldl_cons, List.filterMap_cons]
    by_cases hp : p c
    · rw [if_pos hp, if_pos hp]
      rw [setV_eq_append_of_not_mem _ _ _ (hfresh c (List.mem_cons_self c rest))]
      rw [ih (acc ++ [(g c, vq c)]) hnd.2]
      · simp
      · intro c₂ hc₂
        simp only [List.map_append, List.mem_append, List.map_cons, not_or]
        refine ⟨hfresh c₂ (List.mem_cons_of_mem _ hc₂), ?_⟩
        simp only [List.map_nil, List.mem_singleton]
        intro hgc
        exact hnd.1 (hgc ▸ List.mem_map_of_mem g hc₂)
    · rw [if_neg hp, if_neg hp]
      exact ih acc hnd.2 (fun c₂ hc₂ => hfresh c₂ (List.mem_cons_of_mem _ hc₂))

theorem char_toNat_ofNat (n : ℕ) (h : n.isValidChar) :
    (Char.ofNat n).toNat = n := by
  simp [Char.ofNat, h, Char.ofNatAux, Char.toNat, UInt32.toNat,
    BitVec.toNat_ofNatLt]

theorem lowerChar_idem (c : Char) : lowerChar (lowerChar c) = lowerChar c := by
  unfold lowerChar
  by_cases h : 65 ≤ c.toNat ∧ c.toNat ≤ 90
  · simp only [if_pos h]
    have hval : (c.toNat + 32).isValidChar := Or.inl (by omega)
    have h2 : (Char.ofNat (c.toNat + 32)).toNat = c.toNat + 32 :=
      char_toNat_ofNat _ hval
    rw [if_neg (by rw [h2]; omega)]
  · simp only [if_neg h]

theorem lowerStr_idem (s : String) : lowerStr (lowerStr s) = lowerStr s := by
  unfold lowerStr
  congr 1
  rw [List.map_map]
  exact List.map_congr_left (fun a _ => lowerChar_idem a)

theorem patientConditions_sublist (r : PyRecord) :
    (patientConditions r).Sublist condition_fields :=
  List.filter_sublist _

theorem displayName_nodup (r : PyRecord) :
    ((patientConditions r).map displayName).Nodup := by
  have h : (condition_fields.map displayName).Nodup := by decide
  exact List.Nodup.sublist
    (List.Sublist.map displayName (patientConditions_sublist r)) h

theorem mem_patientConditions (r : PyRecord) (c : String) :
    c ∈ patientConditions r ↔
      c ∈ condition_fields ∧ pyEqOne (getV r c) = true := by
  simp [patientConditions, List.mem_filter]

theorem totalCondImportance_eq_sum (d : List (String × ℚ)) (pc : List String) :
    totalCondImportance d pc = (pc.map (fun c => dictGetD d c 0)).sum := by
  have h : ∀ (l : List String) (init : ℚ),
      l.foldl (fun acc c => acc + dictGetD d c 0) init
        = init + (l.map (fun c => dictGetD d c 0)).sum := by
    intro l
    induction l with
    | nil => intro init; simp
    | cons c rest ih =>
      intro init
      simp only [List.foldl_cons, List.map_cons, List.sum_cons, ih]
      ring
  simpa [totalCondImportance] using h pc 0

theorem ratList_sum_nonpos : ∀ (l : List ℚ), (∀ x ∈ l, x ≤ 0) → l.sum ≤ 0 := by
  intro l
  induction l with
  | nil => intro _; simp
  | cons a rest ih =>
    intro h
    simp only [List.sum_cons]
    have ha := h a (by simp)
    have hr := ih (fun x hx => h x (by simp [hx]))
    linarith

theorem exists_pos_of_total_pos (d : List (String × ℚ)) (pc : List String)
    (h : 0 < totalCondImportance d pc) : ∃ c ∈ pc, 0 < dictGetD d c 0 := by
  by_contra hc
  push_neg at hc
  rw [totalCondImportance_eq_sum] at h
  have hle : (pc.map (fun c => dictGetD d c 0)).sum ≤ 0 := by
    apply ratList_sum_nonpos
    intro x hx
    rcases List.mem_map.mp hx with ⟨c, hcm, rfl⟩
    exact hc c hcm
  linarith

theorem weightedImpacts_of_unresolved (m : MLModel)
    (h : resolveImportances m = none) (cols pc : List String) :
    weightedImpacts m cols pc = [] := by
  simp [weightedImpacts, h]

theorem weightedImpacts_cols_nil (m : MLModel) (pc : List String) :
    weightedImpacts m [] pc = [] := by
  cases hr : resolveImportances m <;> simp [weightedImpacts, hr]

theorem weightedImpacts_of_total_eq_zero (m : MLModel) (cols pc : List String)
    (imps : List ℚ) (h : resolveImportances m = some imps)
    (ht : totalCondImportance (importanceDict cols imps) pc = 0) :
    weightedImpacts m cols pc = [] := by
  by_cases hcols : cols = []
  · subst hcols; exact weightedImpacts_cols_nil m pc
  · simp only [weightedImpacts, h, if_neg hcols]
    rw [if_neg]
    rw [ht]
    exact lt_irrefl 0

theorem weightedImpacts_of_total_pos (m : MLModel) (cols pc : List String)
    (imps : List ℚ) (h : resolveImportances m = some imps)
    (hcols : cols ≠ [])
    (ht : 0 < totalCondImportance (importanceDict cols imps) pc)
    (hnd : (pc.map displayName).Nodup) :
    weightedImpacts m cols pc
      = pc.filterMap (fun c =>
          if 0 < dictGetD (importanceDict cols imps) c 0 /
                totalCondImportance (importanceDict cols imps) pc * 100 then
            some (displayName c,
              pyRound2 (dictGetD (importanceDict cols imps) c 0 /
                totalCondImportance (importanceDict cols imps) pc * 100))
          else none) := by
  simp only [weightedImpacts, h, if_neg hcols, if_pos ht]
  have := foldl_setV_filterMap displayName
    (fun c => 0 < dictGetD (importanceDict cols imps) c 0 /
        totalCondImportance (importanceDict cols imps) pc * 100)
    (fun c => pyRound2 (dictGetD (importanceDict cols imps) c 0 /
        totalCondImportance (importanceDict cols imps) pc * 100))
    pc [] hnd (by simp)
  simpa using this

theorem fallbackImpacts_eq_map (pc : List String)
    (hnd : (pc.map displayName).Nodup) :
    fallbackImpacts pc
      = pc.map (fun c => (displayName c, pyRound2 (100 / (pc.length : ℚ)))) := by
  unfold fallbackImpacts
  have := foldl_setV_map displayName
    (fun _ => pyRound2 (100 / (pc.length : ℚ))) pc [] hnd (by simp)
  simpa using this

theorem weightedImpacts_keys (m : MLModel) (cols pc : List String)
    (hnd : (pc.map displayName).Nodup) (k : String)
    (hk : k ∈ (weightedImpacts m cols pc).map Prod.fst) :
    ∃ c ∈ pc, displayName c = k := by
  rcases hr : resolveImportances m with _ | imps
  · rw [weightedImpacts_of_unresolved m hr] at hk
    cases hk
  · by_cases hcols : cols = []
    · subst hcols
      rw [weightedImpacts_cols_nil] at hk
      cases hk
    · by_cases ht : 0 < totalCondImportance (importanceDict cols imps) pc
      · rw [weightedImpacts_of_total_pos m cols pc imps hr hcols ht hnd] at hk
        rcases List.mem_map.mp hk with ⟨kv, hkv, rfl⟩
        rcases List.mem_filterMap.mp hkv with ⟨c, hcm, hc⟩
        by_cases hp : 0 < dictGetD (importanceDict cols imps) c 0 /
            totalCondImportance (importanceDict cols imps) pc * 100
        · rw [if_pos hp] at hc
          cases hc
          exact ⟨c, hcm, rfl⟩
        · rw [if_neg hp] at hc
          cases hc
      · have ht0 : totalCondImportance (importanceDict cols imps) pc = 0 ∨
            weightedImpacts m cols pc = [] := by
          simp only [weightedImpacts, hr, if_neg hcols]
          right
          rw [if_neg ht]
        rcases ht0 with ht0 | ht0
        · rw [weightedImpacts_of_total_eq_zero m cols pc imps hr ht0] at hk
          cases hk
        · rw [ht0] at hk
          cases hk

theorem getV_passthroughCoerce_SP (form : PyRecord) (k : String)
    (h : startsWithSP k = true) : getV (passthroughCoerce form) k = none := by
  unfold passthroughCoerce
  induction form with
  | nil => rfl
  | cons kv rest ih =>
    rw [List.filter_cons]
    by_cases hkv : startsWithSP kv.1
    · simp only [hkv, Bool.not_true, Bool.false_eq_true, if_false]
      exact ih
    · have hne : kv.1 ≠ k := fun he => hkv (he ▸ h)
      simp only [Bool.not_eq_true', Bool.not_true]
      rw [if_pos (by simp [hkv]), List.map_cons]
      simp only [getV, hne, if_false]
      exact ih

theorem getV_stageP2_flag (form : PyRecord) (f : String)
    (hf : f ∈ condition_fields_upper) :
    getV (stageP2 form) f
      = some (.pint (if (getV form f).isSome then 1 else 0)) := by
  unfold stageP2 conditionFlagsSet
  exact getV_foldl_setV_mem
    (fun f => PyVal.pint (if (getV form f).isSome then 1 else 0))
    condition_fields_upper _ f hf

theorem getV_stageP9_age6574 (form : PyRecord) (age : ℚ) (hi : PyVal)
    (ia ov tc : ℚ) :
    getV (stageP9 form age hi ia ov tc) "age_65_74"
      = some (.pint (ageBand6574 age)) := by
  unfold stageP9 stageP6 stageP5
  rw [getV_setV_of_ne _ _ _ _ (by decide), getV_setV_of_ne _ _ _ _ (by decide),
    getV_setV_of_ne _ _ _ _ (by decide), getV_setV_of_ne _ _ _ _ (by decide),
    getV_setV_of_ne _ _ _ _ (by decide), getV_setV_of_ne _ _ _ _ (by decide),
    getV_setV_self]

theorem getV_stageP9_age7584 (form : PyRecord) (age : ℚ) (hi : PyVal)
    (ia ov tc : ℚ) :
    getV (stageP9 form age hi ia ov tc) "age_75_84"
      = some (.pint (ageBand7584 age)) := by
  unfold stageP9 stageP6 stageP5
  rw [getV_setV_of_ne _ _ _ _ (by decide), getV_setV_of_ne _ _ _ _ (by decide),
    getV_setV_of_ne _ _ _ _ (by decide), getV_setV_of_ne _ _ _ _ (by decide),
    getV_setV_of_ne _ _ _ _ (by decide), getV_setV_self]

theorem getV_stageP9_age85 (form : PyRecord) (age : ℚ) (hi : PyVal)
    (ia ov tc : ℚ) :
    getV (stageP9 form age hi ia ov tc) "age_85_plus"
      = some (.pint (ageBand85 age)) := by
  unfold stageP9 stageP6 stageP5
  rw [getV_setV_of_ne _ _ _ _ (by decide), getV_setV_of_ne _ _ _ _ (by decide),
    getV_setV_of_ne _ _ _ _ (by decide), getV_setV_of_ne _ _ _ _ (by decide),
    getV_setV_self]

theorem processUploadedData_eq (scoreFn : PyRecord → List (String × ℚ))
    (form : PyRecord) (out : PipelineOutput)
    (h : processUploadedData scoreFn form = some out) :
    ∃ p, derivedRecord form = some p
      ∧ out = buildOutput p (scoreFn (loweredDict p)) := by
  unfold processUploadedData at h
  rcases Option.map_eq_some'.mp h with ⟨p, hp, hout⟩
  exact ⟨p, hp, hout.symm⟩

theorem derivedRecord_eq (form : PyRecord) (p : PyRecord)
    (h : derivedRecord form = some p) :
    ∃ age hi ia ov tc,
      pyNumQ ((getV (stageP2 form) "age").getD (.pint 0)) = some age
      ∧ highImpactSum (stageP5 form age) = some hi
      ∧ p = stageP9 form age hi ia ov tc := by
  unfold derivedRecord at h
  split at h
  · cases h
  · rename_i age hage
    split at h
    · cases h
    · rename_i hi hhi
      split at h
      · rename_i ia ov tc hia hov htc
        exact ⟨age, hi, ia, ov, tc, hage, hhi, (Option.some.inj h).symm⟩
      · cases h

theorem getConditionImpact_keys (mm : Option MLModel) (cols : List String)
    (r : PyRecord) (k : String)
    (hk : k ∈ (getConditionImpact mm cols r).map Prod.fst) :
    ∃ c ∈ patientConditions r, displayName c = k := by
  unfold getConditionImpact at hk
  by_cases hpc : patientConditions r = []
  · rw [if_pos hpc] at hk
    cases hk
  · rw [if_neg hpc] at hk
    cases mm with
    | none => cases hk
    | some m =>
      simp only at hk
      by_cases hw : weightedImpacts m cols (patientConditions r) = [] ∧
          patientConditions r ≠ []
      · rw [if_pos hw, fallbackImpacts_eq_map _ (displayName_nodup r)] at hk
        rcases List.mem_map.mp hk with ⟨kv, hkv, rfl⟩
        rcases List.mem_map.mp hkv with ⟨c, hcm, rfl⟩
        exact ⟨c, hcm, rfl⟩
      · rw [if_neg hw] at hk
        exact weightedImpacts_keys m cols _ (displayName_nodup r) k hk

theorem getConditionImpact_fallback (m : MLModel) (cols : List String)
    (r : PyRecord) (hpc : patientConditions r ≠ [])
    (hw : weightedImpacts m cols (patientConditions r) = []) :
    getConditionImpact (some m) cols r
      = fallbackImpacts (patientConditions r) := by
  simp [getConditionImpact, hpc, hw]

theorem getConditionImpact_weighted (m : MLModel) (cols : List String)
    (r : PyRecord) (hpc : patientConditions r ≠ [])
    (hw : weightedImpacts m cols (patientConditions r) ≠ []) :
    getConditionImpact (some m) cols r
      = weightedImpacts m cols (patientConditions r) := by
  simp [getConditionImpact, hpc, hw]

/-- C3 (amended): when no present condition is assignable from model weights
(importances unresolved, feature columns falsy, or the present conditions'
total importance exactly 0) and the patient has at least one present
condition, every present condition receives `round(100 / n, 2)` under its
display name, the impact map is non-empty, and the values sum to
`n * round(100 / n, 2)` — which is exactly 100 only when that rounding is
exact. -/
theorem C3_fallback_uniform :
    ∀ (m : MLModel) (cols : List String) (r : PyRecord),
      patientConditions r ≠ [] →
      (resolveImportances m = none ∨ cols = [] ∨
        (∀ imps, resolveImportances m = some imps →
          totalCondImportance (importanceDict cols imps)
            (patientConditions r) = 0)) →
      getConditionImpact (some m) cols r
          = (patientConditions r).map (fun c =>
              (displayName c,
               pyRound2 (100 / ((patientConditions r).length : ℚ))))
        ∧ getConditionImpact (some m) cols r ≠ []
        ∧ listSumVals (getConditionImpact (some m) cols r)
            = ((patientConditions r).length : ℚ) *
              pyRound2 (100 / ((patientConditions r).length : ℚ)) := by
  intro m cols r hpc hdisj
  have hw : weightedImpacts m cols (patientConditions r) = [] := by
    rcases hdisj with h | h | h
    · exact weightedImpacts_of_unresolved m h cols _
    · subst h
      exact weightedImpacts_cols_nil m _
    · cases hr : resolveImportances m with
      | none => exact weightedImpacts_of_unresolved m hr cols _
      | some imps =>
        exact weightedImpacts_of_total_eq_zero m cols _ imps hr (h imps hr)
  have hfb := getConditionImpact_fallback m cols r hpc hw
  have hmap := fallbackImpacts_eq_map (patientConditions r) (displayName_nodup r)
  refine ⟨by rw [hfb, hmap], ?_, ?_⟩
  · rw [hfb, hmap]
    intro hnil
    exact hpc (List.map_eq_nil_iff.mp hnil)
  · rw [hfb, hmap]
    unfold listSumVals
    rw [List.map_map]
    have hconst : (Prod.snd ∘ fun c =>
        (displayName c, pyRound2 (100 / ((patientConditions r).length : ℚ))))
        = fun _ => pyRound2 (100 / ((patientConditions r).length : ℚ)) := rfl
    rw [hconst, List.map_const', List.sum_replicate, nsmul_eq_mul]

/-- C3 counterexample: with three present conditions and unresolvable
weights each condition receives `round(100 / 3, 2) = 33.33`, so the
resulting impact map sums to 99.99, not exactly 100 as the claim states. -/
theorem C3_counterexample :
    getConditionImpact (some (MLModel.mk none none none)) ["sp_chf"]
        [("sp_chf", PyVal.pint 1), ("sp_diabetes", PyVal.pint 1),
         ("sp_chrnkidn", PyVal.pint 1)]
      = [("Heart Failure", 3333 / 100), ("Diabetes", 3333 / 100),
         ("Kidney Disease", 3333 / 100)]
    ∧ listSumVals (getConditionImpact (some (MLModel.mk none none none))
        ["sp_chf"]
        [("sp_chf", PyVal.pint 1), ("sp_diabetes", PyVal.pint 1),
         ("sp_chrnkidn", PyVal.pint 1)]) = 9999 / 100
    ∧ (9999 : ℚ) / 100 ≠ 100 := by
  refine ⟨by decide, by decide, by decide⟩

/-- C3 witness: two present conditions with unresolvable weights give the
uniform 50/50 split of the specification example. -/
theorem C3_fallback_uniform_witness :
    getConditionImpact (some (MLModel.mk none none none)) ["sp_chf"]
        [("sp_chf", PyVal.pint 1), ("sp_diabetes", PyVal.pint 1)]
      = [("Heart Failure", 50), ("Diabetes", 50)] := by
  have h := (C3_fallback_uniform (MLModel.mk none none none) ["sp_chf"]
    [("sp_chf", PyVal.pint 1), ("sp_diabetes", PyVal.pint 1)]
    (by decide) (Or.inl rfl)).1
  rw [h]
  decide

/-- C4 (amended): with resolved importances, truthy feature columns, and
positive total importance over the present conditions, the impact map
assigns each present condition with positive unrounded relative impact the
value `round(100 * importance / total, 2)` under its display name; a
condition is omitted exactly when its unrounded relative impact is not
positive, so a positive impact that rounds to 0.00 is kept with value 0. -/
theorem C4_weighted_rounding :
    ∀ (m : MLModel) (cols : List String) (r : PyRecord) (imps : List ℚ),
      resolveImportances m = some imps → cols ≠ [] →
      0 < totalCondImportance (importanceDict cols imps)
            (patientConditions r) →
      getConditionImpact (some m) cols r
        = (patientConditions r).filterMap (fun c =>
            if 0 < dictGetD (importanceDict cols imps) c 0 /
                  totalCondImportance (importanceDict cols imps)
                    (patientConditions r) * 100 then
              some (displayName c,
                pyRound2 (dictGetD (importanceDict cols imps) c 0 /
                  totalCondImportance (importanceDict cols imps)
                    (patientConditions r) * 100))
            else none) := by
  intro m cols r imps hr hcols ht
  have hpc : patientConditions r ≠ [] := by
    intro hnil
    rw [hnil] at ht
    simp [totalCondImportance] at ht
  have hweq := weightedImpacts_of_total_pos m cols _ imps hr hcols ht
    (displayName_nodup r)
  have hne : weightedImpacts m cols (patientConditions r) ≠ [] := by
    rw [hweq]
    obtain ⟨c, hcm, hcpos⟩ := exists_pos_of_total_pos _ _ ht
    intro hnil
    have hrel : 0 < dictGetD (importanceDict cols imps) c 0 /
        totalCondImportance (importanceDict cols imps)
          (patientConditions r) * 100 :=
      mul_pos (div_pos hcpos ht) (by norm_num)
    have hnone := List.filterMap_eq_nil_iff.mp hnil c hcm
    rw [if_pos hrel] at hnone
    cases hnone
  rw [getConditionImpact_weighted m cols r hpc hne, hweq]

/-- C4 counterexample: importances 1 and 29999 give Heart Failure the
unrounded relative impact 1/300 of a percent, which is positive but rounds
to 0.00; the entry is kept in the map with value 0, while the claim says a
condition whose resulting value is 0 is omitted. -/
theorem C4_counterexample :
    getConditionImpact (some (MLModel.mk (some [1, 29999]) none none))
        ["sp_chf", "sp_diabetes"]
        [("sp_chf", PyVal.pint 1), ("sp_diabetes", PyVal.pint 1)]
      = [("Heart Failure", 0), ("Diabetes", 100)]
    ∧ ("Heart Failure", (0 : ℚ)) ∈
        getConditionImpact (some (MLModel.mk (some [1, 29999]) none none))
          ["sp_chf", "sp_diabetes"]
          [("sp_chf", PyVal.pint 1), ("sp_diabetes", PyVal.pint 1)] := by
  refine ⟨by decide, by decide⟩

/-- C4 witness: the specification example, importances 3 and 1 over two
present conditions give 75.0 and 25.0. -/
theorem C4_weighted_rounding_witness :
    getConditionImpact (some (MLModel.mk (some [3, 1]) none none))
        ["sp_chf", "sp_diabetes"]
        [("sp_chf", PyVal.pint 1), ("sp_diabetes", PyVal.pint 1)]
      = [("Heart Failure", 75), ("Diabetes", 25)] := by
  have h := C4_weighted_rounding (MLModel.mk (some [3, 1]) none none)
    ["sp_chf", "sp_diabetes"]
    [("sp_chf", PyVal.pint 1), ("sp_diabetes", PyVal.pint 1)]
    [3, 1] rfl (by decide) (by decide)
  rw [h]
  decide

/-- C5: importance resolution prefers a direct importance vector, then the
absolute values of the coefficient row, then the same two checks one level
down on the wrapped base estimator; when none of these are available the
importances stay unresolved and the weighted attribution produces
nothing. -/
theorem C5_importance_resolution :
    ∀ (fi c : List ℚ) (co : Option (List ℚ)) (ba ba2 : Option MLModel),
      resolveImportances (MLModel.mk (some fi) co ba) = some fi
      ∧ resolveImportances (MLModel.mk none (some c) ba)
          = some (c.map (fun x => |x|))
      ∧ resolveImportances
            (MLModel.mk none none (some (MLModel.mk (some fi) co ba2)))
          = some fi
      ∧ resolveImportances
            (MLModel.mk none none (some (MLModel.mk none (some c) ba2)))
          = some (c.map (fun x => |x|))
      ∧ resolveImportances
            (MLModel.mk none none (some (MLModel.mk none none ba2))) = none
      ∧ resolveImportances (MLModel.mk none none none) = none
      ∧ (∀ (m : MLModel) (cols pc : List String),
          resolveImportances m = none → weightedImpacts m cols pc = []) := by
  intro fi c co ba ba2
  refine ⟨rfl, rfl, rfl, rfl, rfl, rfl, ?_⟩
  intro m cols pc h
  exact weightedImpacts_of_unresolved m h cols pc

/-- C5 witness: a model exposing both an importance vector and a
coefficient row resolves to the importance vector, and a model exposing
neither produces no weighted impacts. -/
theorem C5_importance_resolution_witness :
    resolveImportances (MLModel.mk (some [2]) (some [3]) none) = some [2]
    ∧ weightedImpacts (MLModel.mk none none none) ["sp_chf"] ["sp_chf"]
        = [] := by
  refine ⟨(C5_importance_resolution [2] [3] (some [3]) none none).1, ?_⟩
  exact (C5_importance_resolution [2] [3] none none none).2.2.2.2.2.2
    (MLModel.mk none none none) ["sp_chf"] ["sp_chf"] rfl

/-- C10: a condition counts as present exactly when the record maps the
lowercase condition code to a value that is Python-equal to the integer 1;
a string value, a different number, a missing key, or a key in another
casing is treated as absent, and such a condition contributes no entry to
the impact map and does not count toward the present-condition set. -/
theorem C10_presence_check :
    ∀ (r : PyRecord) (c : String),
      (c ∈ patientConditions r ↔
        c ∈ condition_fields ∧ pyEqOne (getV r c) = true)
      ∧ pyEqOne (some (PyVal.pstr "1")) = false
      ∧ pyEqOne (some (PyVal.pint 2)) = false
      ∧ pyEqOne none = false
      ∧ getV [("SP_CHF", PyVal.pint 1)] "sp_chf" = none
      ∧ (∀ (mm : Option MLModel) (cols : List String),
          c ∈ condition_fields → pyEqOne (getV r c) = false →
          c ∉ patientConditions r
          ∧ displayName c ∉ (getConditionImpact mm cols r).map Prod.fst) := by
  intro r c
  refine ⟨mem_patientConditions r c, rfl, rfl, rfl, by decide, ?_⟩
  intro mm cols hcf hfalse
  have hnotin : c ∉ patientConditions r := by
    rw [mem_patientConditions]
    rintro ⟨_, htrue⟩
    rw [hfalse] at htrue
    cases htrue
  refine ⟨hnotin, ?_⟩
  intro hk
  obtain ⟨c0, hc0mem, hc0eq⟩ := getConditionImpact_keys mm cols r _ hk
  have hc0cf : c0 ∈ condition_fields :=
    (patientConditions_sublist r).subset hc0mem
  have hnd : (condition_fields.map displayName).Nodup := by decide
  have hinj : c0 = c := List.inj_on_of_nodup_map hnd hc0cf hcf hc0eq
  exact hnotin (hinj ▸ hc0mem)

/-- C10 witness: the string value of the lowercase key is not
Python-equal to 1, so the condition is absent and produces no impact
entry. -/
theorem C10_presence_check_witness :
    "sp_chf" ∉ patientConditions [("sp_chf", PyVal.pstr "1")]
    ∧ displayName "sp_chf" ∉
        (getConditionImpact (some (MLModel.mk none none none)) []
          [("sp_chf", PyVal.pstr "1")]).map Prod.fst := by
  exact (C10_presence_check [("sp_chf", PyVal.pstr "1")] "sp_chf").2.2.2.2.2
    (some (MLModel.mk none none none)) [] (by decide) (by decide)

/-- C1: the tier cascade assigns tier 5 iff p ≥ 0.85, tier 4 iff
0.65 ≤ p < 0.85, tier 3 iff 0.40 ≤ p < 0.65, tier 2 iff 0.15 ≤ p < 0.40
and tier 1 iff p < 0.15, each lower bound inclusive; the tier label,
intervention, annual cost and prevention rate come from the fixed five-row
policy table; a missing 30-day score is treated as 0 and yields tier 1. -/
theorem C1_tier_classification :
    (∀ p : ℚ,
      (riskTierOf p = 5 ↔ 85 / 100 ≤ p)
      ∧ (riskTierOf p = 4 ↔ 65 / 100 ≤ p ∧ p < 85 / 100)
      ∧ (riskTierOf p = 3 ↔ 40 / 100 ≤ p ∧ p < 65 / 100)
      ∧ (riskTierOf p = 2 ↔ 15 / 100 ≤ p ∧ p < 40 / 100)
      ∧ (riskTierOf p = 1 ↔ p < 15 / 100))
    ∧ tierInfoAt 1 = ⟨"Low Risk", "Preventive Care", 200, 2 / 100⟩
    ∧ tierInfoAt 2 = ⟨"Low-Moderate Risk", "Enhanced Wellness", 300, 5 / 100⟩
    ∧ tierInfoAt 3 = ⟨"Moderate Risk", "Care Coordination", 600, 15 / 100⟩
    ∧ tierInfoAt 4 = ⟨"High Risk", "Case Management", 800, 25 / 100⟩
    ∧ tierInfoAt 5 = ⟨"Critical Risk", "Intensive Management", 1000, 35 / 100⟩
    ∧ primaryScoreOf none = 0
    ∧ riskTierOf (primaryScoreOf none) = 1
    ∧ (∀ (scoreFn : PyRecord → List (String × ℚ)) (form : PyRecord)
         (out : PipelineOutput),
        processUploadedData scoreFn form = some out →
        out.primaryRiskScore = primaryScoreOf out.hospitalization30d
        ∧ out.riskTier = riskTierOf out.primaryRiskScore
        ∧ out.riskTierLabel = (tierInfoAt out.riskTier).label
        ∧ out.careIntervention = (tierInfoAt out.riskTier).intervention
        ∧ out.annualInterventionCost = (tierInfoAt out.riskTier).cost
        ∧ out.preventionRate = (tierInfoAt out.riskTier).rate) := by
  refine ⟨?_, by decide, by decide, by decide, by decide, by decide, rfl,
    by decide, ?_⟩
  · intro p
    unfold riskTierOf
    split_ifs with h1 h2 h3 h4 <;>
      refine ⟨?_, ?_, ?_, ?_, ?_⟩ <;>
      constructor <;>
      intro hh <;>
      first
        | rfl
        | assumption
        | exact absurd hh (by decide)
        | linarith
        | (exact ⟨by linarith, by linarith⟩)
  · intro scoreFn form out h
    obtain ⟨p, hp, rfl⟩ := processUploadedData_eq scoreFn form out h
    exact ⟨rfl, rfl, rfl, rfl, rfl, rfl⟩

/-- C1 witness: the boundary score 0.85 lands in tier 5, and a run with no
30-day score yields the tier computed from the defaulted primary score. -/
theorem C1_tier_classification_witness :
    riskTierOf (85 / 100) = 5
    ∧ ((processUploadedData (fun _ => []) []).getD default).riskTier
        = riskTierOf
            ((processUploadedData (fun _ => []) []).getD default).primaryRiskScore := by
  refine ⟨(C1_tier_classification.1 (85 / 100)).1.mpr (le_refl _), ?_⟩
  have h : processUploadedData (fun _ => []) []
      = some ((processUploadedData (fun _ => []) []).getD default) := by decide
  exact (C1_tier_classification.2.2.2.2.2.2.2.2 (fun _ => []) [] _ h).2.1

/-- C2 (amended): every key whose uppercase form begins with the
condition-flag prefix is dropped from direct passthrough, and each of the
11 uppercase condition codes is re-derived as 1 exactly when that exact
uppercase code occurs verbatim as a key of the input record (the
membership check is case-sensitive), else 0, regardless of the original
value; the re-derived flags survive into the output record. -/
theorem C2_condition_flags :
    ∀ (form : PyRecord),
      (∀ k, startsWithSP k = true → getV (passthroughCoerce form) k = none)
      ∧ (∀ f, f ∈ condition_fields_upper →
          getV (stageP2 form) f
            = some (.pint (if (getV form f).isSome then 1 else 0)))
      ∧ (∀ (scoreFn : PyRecord → List (String × ℚ)) (out : PipelineOutput),
          processUploadedData scoreFn form = some out →
          ∀ f ∈ condition_fields_upper,
            getV out.processed f
              = some (.pint (if (getV form f).isSome then 1 else 0))) := by
  intro form
  refine ⟨fun k hk => getV_passthroughCoerce_SP form k hk,
          fun f hf => getV_stageP2_flag form f hf, ?_⟩
  intro scoreFn out h f hf
  obtain ⟨p, hp, rfl⟩ := processUploadedData_eq scoreFn form out h
  obtain ⟨age, hi, ia, ov, tc, _, _, hpeq⟩ := derivedRecord_eq form p hp
  have hproc : (buildOutput p (scoreFn (loweredDict p))).processed = p := rfl
  rw [hproc, hpeq]
  have hne : ∀ x ∈ condition_fields_upper,
      x ≠ "high_cost_patient" ∧ x ≠ "frequent_ed_user" ∧
      x ≠ "prior_hospitalization" ∧ x ≠ "high_impact_conditions" ∧
      x ≠ "age_85_plus" ∧ x ≠ "age_75_84" ∧ x ≠ "age_65_74" := by decide
  obtain ⟨h1, h2, h3, h4, h5, h6, h7⟩ := hne f hf
  unfold stageP9 stageP6 stageP5
  rw [getV_setV_of_ne _ _ _ _ h1, getV_setV_of_ne _ _ _ _ h2,
    getV_setV_of_ne _ _ _ _ h3, getV_setV_of_ne _ _ _ _ h4,
    getV_setV_of_ne _ _ _ _ h5, getV_setV_of_ne _ _ _ _ h6,
    getV_setV_of_ne _ _ _ _ h7]
  exact getV_stageP2_flag form f hf

/-- C2 counterexample: the input key `sp_chf` matches the condition code
`SP_CHF` up to case, yet the re-derived flag is 0, because the membership
check `field in form_data` is case-sensitive; the claim as stated requires
1 here. -/
theorem C2_counterexample :
    upperStr "sp_chf" = "SP_CHF"
    ∧ getV (stageP2 [("sp_chf", PyVal.pint 1)]) "SP_CHF"
        = some (PyVal.pint 0)
    ∧ getV (stageP2 [("sp_chf", PyVal.pint 1)]) "SP_CHF"
        ≠ some (PyVal.pint 1) := by
  refine ⟨by decide, by decide, by decide⟩

/-- C2 witness: an exact uppercase key is dropped from passthrough and
re-derived as 1. -/
theorem C2_condition_flags_witness :
    getV (passthroughCoerce [("SP_CHF", PyVal.pint 1), ("age", PyVal.pint 70)])
        "SP_CHF" = none
    ∧ getV (stageP2 [("SP_CHF", PyVal.pint 1), ("age", PyVal.pint 70)])
        "SP_CHF" = some (PyVal.pint 1) := by
  refine ⟨(C2_condition_flags
    [("SP_CHF", PyVal.pint 1), ("age", PyVal.pint 70)]).1 "SP_CHF" (by decide),
    ?_⟩
  have h := (C2_condition_flags
    [("SP_CHF", PyVal.pint 1), ("age", PyVal.pint 70)]).2.1 "SP_CHF" (by decide)
  rw [h]
  decide

/-- C6: in every successful pipeline run, prevented hospitalizations equal
the primary score times the tier prevention rate, and cost savings equal
prevented hospitalizations times the fixed constant 10000, exactly. -/
theorem C6_roi_derivation :
    ∀ (scoreFn : PyRecord → List (String × ℚ)) (form : PyRecord)
      (out : PipelineOutput),
      processUploadedData scoreFn form = some out →
      out.preventedHospitalizations = out.primaryRiskScore * out.preventionRate
      ∧ out.costSavings = out.preventedHospitalizations * 10000
      ∧ out.costSavings = out.primaryRiskScore * out.preventionRate * 10000 := by
  intro scoreFn form out h
  obtain ⟨p, hp, rfl⟩ := processUploadedData_eq scoreFn form out h
  exact ⟨rfl, rfl, rfl⟩

/-- C6 witness: a run scoring 0.9 gives tier 5 with rate 0.35, so cost
savings are prevented hospitalizations times 10000. -/
theorem C6_roi_derivation_witness :
    ((processUploadedData (fun _ => [("30d_hospitalization_score", 9 / 10)])
        []).getD default).costSavings
      = ((processUploadedData (fun _ => [("30d_hospitalization_score", 9 / 10)])
        []).getD default).preventedHospitalizations * 10000 := by
  have h : processUploadedData (fun _ => [("30d_hospitalization_score", 9 / 10)]) []
      = some ((processUploadedData
          (fun _ => [("30d_hospitalization_score", 9 / 10)]) []).getD default) := by
    decide
  exact (C6_roi_derivation _ _ _ h).2.1

/-- C7: the derived age-band flags are mutually exclusive, cover exactly
the documented ranges with inclusive lower bounds, are all zero iff the
age is below 65, and every successful pipeline run stores exactly these
flags in the output record. -/
theorem C7_age_bands :
    (∀ a : ℚ,
      (ageBand6574 a = 1 ↔ 65 ≤ a ∧ a < 75)
      ∧ (ageBand7584 a = 1 ↔ 75 ≤ a ∧ a < 85)
      ∧ (ageBand85 a = 1 ↔ 85 ≤ a)
      ∧ (ageBand6574 a = 0 ∧ ageBand7584 a = 0 ∧ ageBand85 a = 0 ↔ a < 65)
      ∧ ageBand6574 a + ageBand7584 a + ageBand85 a ≤ 1)
    ∧ (∀ (scoreFn : PyRecord → List (String × ℚ)) (form : PyRecord)
         (out : PipelineOutput) (a : ℚ),
        processUploadedData scoreFn form = some out →
        pyNumQ ((getV (stageP2 form) "age").getD (.pint 0)) = some a →
        getV out.processed "age_65_74" = some (.pint (ageBand6574 a))
        ∧ getV out.processed "age_75_84" = some (.pint (ageBand7584 a))
        ∧ getV out.processed "age_85_plus" = some (.pint (ageBand85 a))) := by
  constructor
  · intro a
    have e1 : ageBand6574 a = 1 ↔ 65 ≤ a ∧ a < 75 := by
      unfold ageBand6574
      split_ifs with h <;> simp [h]
    have e2 : ageBand7584 a = 1 ↔ 75 ≤ a ∧ a < 85 := by
      unfold ageBand7584
      split_ifs with h <;> simp [h]
    have e3 : ageBand85 a = 1 ↔ 85 ≤ a := by
      unfold ageBand85
      split_ifs with h <;> simp [h]
    have z1 : ageBand6574 a = 0 ↔ ¬(65 ≤ a ∧ a < 75) := by
      unfold ageBand6574
      split_ifs with h <;> simp [h]
    have z2 : ageBand7584 a = 0 ↔ ¬(75 ≤ a ∧ a < 85) := by
      unfold ageBand7584
      split_ifs with h <;> simp [h]
    have z3 : ageBand85 a = 0 ↔ ¬(85 ≤ a) := by
      unfold ageBand85
      split_ifs with h <;> simp [h]
    have hz : (ageBand6574 a = 0 ∧ ageBand7584 a = 0 ∧ ageBand85 a = 0)
        ↔ a < 65 := by
      rw [z1, z2, z3]
      constructor
      · rintro ⟨n1, n2, n3⟩
        by_contra hge
        push_neg at hge
        rcases lt_or_le a 75 with hc | hc
        · exact n1 ⟨hge, hc⟩
        · rcases lt_or_le a 85 with hd | hd
          · exact n2 ⟨hc, hd⟩
          · exact n3 hd
      · intro hlt
        exact ⟨fun hh => by linarith [hh.1],
               fun hh => by linarith [hh.1],
               fun hh => by linarith⟩
    have hsum : ageBand6574 a + ageBand7584 a + ageBand85 a ≤ 1 := by
      rcases lt_or_le a 65 with h | h
      · obtain ⟨x1, x2, x3⟩ := hz.mpr h
        rw [x1, x2, x3]
        norm_num
      · rcases lt_or_le a 75 with h75 | h75
        · rw [e1.mpr ⟨h, h75⟩, z2.mpr (by rintro ⟨hx, _⟩; linarith),
            z3.mpr (by linarith)]
          norm_num
        · rcases lt_or_le a 85 with h85 | h85
          · rw [z1.mpr (by rintro ⟨_, hy⟩; linarith),
              e2.mpr ⟨h75, h85⟩, z3.mpr (by linarith)]
            norm_num
          · rw [z1.mpr (by rintro ⟨_, hy⟩; linarith),
              z2.mpr (by rintro ⟨_, hy⟩; linarith), e3.mpr h85]
            norm_num
    exact ⟨e1, e2, e3, hz, hsum⟩
  · intro scoreFn form out a h hage
    obtain ⟨p, hp, rfl⟩ := processUploadedData_eq scoreFn form out h
    obtain ⟨age, hi, ia, ov, tc, hage2, _, hpeq⟩ := derivedRecord_eq form p hp
    have haa : age = a := Option.some.inj (hage2.symm.trans hage)
    subst haa
    have hproc : (buildOutput p (scoreFn (loweredDict p))).processed = p := rfl
    rw [hproc, hpeq]
    exact ⟨getV_stageP9_age6574 form age hi ia ov tc,
           getV_stageP9_age7584 form age hi ia ov tc,
           getV_stageP9_age85 form age hi ia ov tc⟩

/-- C7 witness: a run with age 70 stores flag values given by the age-band
functions, and the 65-74 flag is 1 at age 70. -/
theorem C7_age_bands_witness :
    getV ((processUploadedData (fun _ => [])
        [("age", PyVal.pint 70)]).getD default).processed "age_65_74"
      = some (PyVal.pint (ageBand6574 70))
    ∧ ageBand6574 70 = 1 := by
  have h : processUploadedData (fun _ => []) [("age", PyVal.pint 70)]
      = some ((processUploadedData (fun _ => [])
          [("age", PyVal.pint 70)]).getD default) := by decide
  have hage : pyNumQ ((getV (stageP2 [("age", PyVal.pint 70)]) "age").getD
      (.pint 0)) = some 70 := by decide
  refine ⟨(C7_age_bands.2 _ _ _ 70 h hage).1, ?_⟩
  exact (C7_age_bands.1 70).1.mpr (by norm_num)

/-- C9 (amended): every successful run of `process_uploaded_data` performs
exactly one persistence call, made on the complete result record
immediately before returning; the computation of the result itself
contributes no I/O events. -/
theorem C9_persistence_inside :
    ∀ (scoreFn : PyRecord → List (String × ℚ)) (form : PyRecord)
      (out : PipelineOutput),
      processUploadedData scoreFn form = some out →
      out.trace = [DBEvent.persistResults] := by
  intro scoreFn form out h
  obtain ⟨p, hp, rfl⟩ := processUploadedData_eq scoreFn form out h
  rfl

/-- C9 counterexample: a concrete run of the pipeline call carries the
persistence event in its trace before returning, so the trace is not
empty, contradicting the claim that persistence is invoked only after
the pipeline has returned and that the pipeline performs no I/O of its
own. -/
theorem C9_counterexample :
    (processUploadedData (fun _ => []) []).map PipelineOutput.trace
      = some [DBEvent.persistResults]
    ∧ (processUploadedData (fun _ => []) []).map PipelineOutput.trace
      ≠ some [] := by
  refine ⟨by decide, by decide⟩

/-- C9 witness: a concrete successful run has exactly the single
persistence event in its trace. -/
theorem C9_persistence_inside_witness :
    ((processUploadedData (fun _ => [])
        [("age", PyVal.pint 42)]).getD default).trace
      = [DBEvent.persistResults] := by
  have h : processUploadedData (fun _ => []) [("age", PyVal.pint 42)]
      = some ((processUploadedData (fun _ => [])
          [("age", PyVal.pint 42)]).getD default) := by decide
  exact C9_persistence_inside _ _ _ h

/-- C8: prediction-input normalization is total; the produced vector lists
exactly the required feature columns in order (extra input fields are
ignored), and any required feature name with no case-insensitive match in
the input gets the value 0. -/
theorem C8_missing_feature_default :
    ∀ (cols : List String) (input : PyRecord) (f : String),
      f ∈ cols → (∀ kv ∈ input, lowerStr kv.1 ≠ lowerStr f) →
      (normalizePredictInput cols input).map Prod.fst = cols
      ∧ getV (normalizePredictInput cols input) f = some (PyVal.pint 0) := by
  intro cols input f hf habs
  constructor
  · unfold normalizePredictInput
    rw [List.map_map]
    exact List.map_id cols
  · unfold normalizePredictInput
    rw [getV_map_pair
      (fun f => (getV (ensureFeatures cols
        (buildDict (input.map (fun kv => (lowerStr kv.1, kv.2))))) f).getD
        (.pint 0)) cols f, if_pos hf]
    rw [getV_ensureFeatures, if_pos hf]
    have htemp :
        getV (buildDict (input.map (fun kv => (lowerStr kv.1, kv.2)))) f
          = none := by
      apply getV_buildDict_not_mem
      intro hmem
      rw [List.map_map] at hmem
      rcases List.mem_map.mp hmem with ⟨kv, hkv, hkeq⟩
      have h1 : lowerStr kv.1 = f := hkeq
      apply habs kv hkv
      rw [← h1, lowerStr_idem]
    rw [htemp]
    rfl

/-- C8 witness: with required features age and name, an input containing
only a differently-cased unrelated key yields the full vector with age
defaulted to 0. -/
theorem C8_missing_feature_default_witness :
    (normalizePredictInput ["age", "name"]
        [("Name", PyVal.pstr "Ann")]).map Prod.fst = ["age", "name"]
    ∧ getV (normalizePredictInput ["age", "name"]
        [("Name", PyVal.pstr "Ann")]) "age" = some (PyVal.pint 0) := by
  exact C8_missing_feature_default ["age", "name"]
    [("Name", PyVal.pstr "Ann")] "age" (by decide) (by decide)
